import Mathlib

/-!
Verification of the interactive reachability-graph query tool
(`tools/reachability-analysis/main.py`).

The tool loads a reachability graph once and then runs a read-eval-print
loop.  Each raw input line is dispatched by the loop body:

  while input_str != "x":
      if not input_str.strip(): ... continue            -- re-prompt
      if input_str.startswith("s "): graph.list_nodes(input_str[2:]); continue
      try: node = graph.get_node(input_str); print(repr(node))
      except KeyError: print(f"Cannot find a node named '<input_str>'")

We embed lines as `List Char`, the dispatch as a total function `classify`,
the graph collaborator as an opaque record of operations, and a session as
a fold over the list of input lines producing an event trace.
-/

/-- The characters Python's `str.strip()` removes, i.e. those on which
`str.isspace()` is true: tab, newline, vertical tab, form feed, carriage
return, the file/group/record/unit separators U+001C..U+001F, space, next
line U+0085, no-break space U+00A0, ogham space mark U+1680, the en/em
family U+2000..U+200A, line separator U+2028, paragraph separator U+2029,
narrow no-break space U+202F, medium mathematical space U+205F, and
ideographic space U+3000. -/
def pySpaceChars : List Char :=
  ['\t', '\n', Char.ofNat 11, Char.ofNat 12, '\r',
   Char.ofNat 28, Char.ofNat 29, Char.ofNat 30, Char.ofNat 31, ' ',
   Char.ofNat 133, Char.ofNat 160, Char.ofNat 0x1680,
   Char.ofNat 0x2000, Char.ofNat 0x2001, Char.ofNat 0x2002,
   Char.ofNat 0x2003, Char.ofNat 0x2004, Char.ofNat 0x2005,
   Char.ofNat 0x2006, Char.ofNat 0x2007, Char.ofNat 0x2008,
   Char.ofNat 0x2009, Char.ofNat 0x200A, Char.ofNat 0x2028,
   Char.ofNat 0x2029, Char.ofNat 0x202F, Char.ofNat 0x205F,
   Char.ofNat 0x3000]

/-- Whether `str.strip()` removes the character `c`. -/
def isPySpace (c : Char) : Bool :=
  pySpaceChars.contains c

/-- Embedding of Python `s.strip()`: remove leading and trailing whitespace. -/
def pyStrip (s : List Char) : List Char :=
  ((s.dropWhile isPySpace).reverse.dropWhile isPySpace).reverse

/-- Embedding of Python `s.startswith("s ")`: the first two characters are
`s` and a space. -/
def startswith_s_space (s : List Char) : Bool :=
  s.take 2 == ['s', ' ']

/-- The command a raw input line is dispatched to (spec §3, `Command`). -/
inductive Command where
  | Exit : Command
  | Empty : Command
  | Search : List Char → Command
  | Lookup : List Char → Command
deriving DecidableEq

/-- The loop body of `main` as a classifier, mirroring the source order:
`while input_str != "x"` first, then the strip-empty test, then the
`startswith("s ")` test (`input_str[2:]` is `drop 2`), else lookup of the
raw line. -/
def classify (input_str : List Char) : Command :=
  if input_str = ['x'] then Command.Exit
  else if pyStrip input_str = [] then Command.Empty
  else if startswith_s_space input_str then Command.Search (input_str.drop 2)
  else Command.Lookup input_str

/-- Modelled from the spec: the `ReachabilityGraph` collaborator
(`lib.core`, not part of the sources under verification) is an opaque
service.  `nodes` is its internal graph state; `list_nodes term` is the
sequence of lines the search operation prints; `get_node name` returns the
rendering (`repr`) of the node, or `none` for the `KeyError` case. -/
structure ReachabilityGraph where
  nodes : List (List Char × List Char)
  list_nodes : List Char → List (List Char)
  get_node : List Char → Option (List Char)

/-- The quote character used by the f-string of the not-found message. -/
def quoteChar : Char := Char.ofNat 39

/-- The message printed when `get_node` raises `KeyError`:
`Cannot find a node named` followed by the raw name in quotes. -/
def cannotFindMsg (name : List Char) : List Char :=
  "Cannot find a node named ".data ++ quoteChar :: (name ++ [quoteChar])

/-- The single line printed by the lookup branch: the node's rendering on
success, the not-found message on `KeyError`. -/
def lookupOutput (g : ReachabilityGraph) (name : List Char) : List Char :=
  match g.get_node name with
  | some r => r
  | none => cannotFindMsg name

/-- A call made to the graph collaborator. -/
inductive GSCall where
  | load : List Char → GSCall
  | search : List Char → GSCall
  | lookup : List Char → GSCall
deriving DecidableEq

/-- An observable event of a session: the loading notice, a collaborator
call, a printed prompt, or a printed output line. -/
inductive Event where
  | loadingNotice : Event
  | call : GSCall → Event
  | prompt : Event
  | output : List Char → Event
deriving DecidableEq

/-- The events of one loop iteration on one input line (excluding the
prompt printed for the next read): nothing for exit and empty lines, the
search call and its printed identifiers for a search command, the lookup
call and its single printed line for a lookup command. -/
def iterEvents (g : ReachabilityGraph) (line : List Char) : List Event :=
  match classify line with
  | Command.Exit => []
  | Command.Empty => []
  | Command.Search term =>
      Event.call (GSCall.search term) :: (g.list_nodes term).map Event.output
  | Command.Lookup name =>
      [Event.call (GSCall.lookup name), Event.output (lookupOutput g name)]

/-- The event trace of the query loop on a finite list of input lines:
exit stops the loop; any other line produces its iteration events followed
by the prompt for the next read. -/
def loopEvents (g : ReachabilityGraph) : List (List Char) → List Event
  | [] => []
  | line :: rest =>
      if classify line = Command.Exit then []
      else iterEvents g line ++ Event.prompt :: loopEvents g rest

/-- The event trace of `main` after argument parsing: the loading notice,
the single `load` call, the first prompt, then the loop. -/
def mainEvents (g : ReachabilityGraph) (path : List Char)
    (inputs : List (List Char)) : List Event :=
  Event.loadingNotice :: Event.call (GSCall.load path) ::
    Event.prompt :: loopEvents g inputs

/-- Whether an event is a `load` call on the collaborator. -/
def isLoadCall : Event → Bool
  | Event.call (GSCall.load _) => true
  | _ => false

/-- The result of running the query loop on a finite list of input lines:
the printed search/lookup output lines, the number of lines consumed, and
whether the loop terminated via the exit command (rather than exhausting
the input, which in the source raises `EOFError`). -/
structure RunResult where
  output : List (List Char)
  consumed : Nat
  exited : Bool

/-- The output lines printed by one loop iteration. -/
def iterOutput (g : ReachabilityGraph) (line : List Char) : List (List Char) :=
  match classify line with
  | Command.Exit => []
  | Command.Empty => []
  | Command.Search term => g.list_nodes term
  | Command.Lookup name => [lookupOutput g name]

/-- Running the query loop over a finite list of input lines. -/
def runLoop (g : ReachabilityGraph) : List (List Char) → RunResult
  | [] => ⟨[], 0, false⟩
  | line :: rest =>
      if classify line = Command.Exit then ⟨[], 1, true⟩
      else
        ⟨iterOutput g line ++ (runLoop g rest).output,
         (runLoop g rest).consumed + 1, (runLoop g rest).exited⟩

/-- The graph state as threaded through the loop: the source never rebinds
`graph` nor calls `load` inside the loop, so each iteration passes it on
unchanged. -/
def runLoopGraph (g : ReachabilityGraph) : List (List Char) → ReachabilityGraph
  | [] => g
  | line :: rest =>
      if classify line = Command.Exit then g else runLoopGraph g rest

/-- A sample graph with no nodes, used to instantiate theorems at concrete
inputs. -/
def gEmpty : ReachabilityGraph :=
  ⟨[], fun _ => [], fun _ => none⟩

/-- A sample graph holding one node `A`, used to instantiate theorems at
concrete inputs. -/
def gOneNode : ReachabilityGraph :=
  ⟨[(['A'], ['A'])], fun _ => [], fun n => if n = ['A'] then some ['A'] else none⟩

/-! ### Helper lemmas about `pyStrip` and `classify` -/

lemma pyStrip_eq_nil_iff (s : List Char) :
    pyStrip s = [] ↔ ∀ c ∈ s, isPySpace c = true := by
  unfold pyStrip
  rw [List.reverse_eq_nil_iff, List.dropWhile_eq_nil_iff]
  constructor
  · intro h c hc
    have hsplit : c ∈ s.takeWhile isPySpace ++ s.dropWhile isPySpace := by
      rw [List.takeWhile_append_dropWhile]; exact hc
    rcases List.mem_append.mp hsplit with h1 | h2
    · exact List.mem_takeWhile_imp h1
    · exact h c (List.mem_reverse.mpr h2)
  · intro h c hc
    exact h c ((List.dropWhile_sublist isPySpace).subset (List.mem_reverse.mp hc))

lemma dropWhile_append_singleton (p : Char → Bool) (xs : List Char) (a : Char)
    (ha : p a = false) : (xs ++ [a]).dropWhile p = xs.dropWhile p ++ [a] := by
  induction xs with
  | nil => simp [List.dropWhile_cons, ha]
  | cons c cs ih => by_cases h : p c <;> simp [List.dropWhile_cons, h, ih]

lemma pyStrip_cons_of_not_space (a : Char) (t : List Char)
    (ha : isPySpace a = false) :
    pyStrip (a :: t) = a :: (t.reverse.dropWhile isPySpace).reverse := by
  unfold pyStrip
  rw [List.dropWhile_cons]
  simp only [ha, Bool.false_eq_true, if_false, List.reverse_cons]
  rw [dropWhile_append_singleton isPySpace t.reverse a ha, List.reverse_append]
  simp

lemma pyStrip_ne_nil_of_mem (s : List Char) (c : Char) (hc : c ∈ s)
    (h : isPySpace c = false) : pyStrip s ≠ [] := by
  rw [Ne, pyStrip_eq_nil_iff]
  intro hall
  rw [hall c hc] at h
  cases h

lemma all_space_ne_x (s : List Char) (h : ∀ c ∈ s, isPySpace c = true) :
    s ≠ ['x'] := by
  intro he
  subst he
  have := h 'x' (List.mem_singleton.mpr rfl)
  exact absurd this (by decide)

lemma classify_eq_exit_iff (s : List Char) :
    classify s = Command.Exit ↔ s = ['x'] := by
  constructor
  · intro h
    by_contra hne
    unfold classify at h
    rw [if_neg hne] at h
    by_cases h2 : pyStrip s = []
    · rw [if_pos h2] at h; exact Command.noConfusion h
    · rw [if_neg h2] at h
      by_cases h3 : startswith_s_space s = true
      · rw [if_pos h3] at h; exact Command.noConfusion h
      · rw [if_neg h3] at h; exact Command.noConfusion h
  · intro h; subst h; rfl

lemma classify_empty_of (s : List Char) (hx : s ≠ ['x']) (he : pyStrip s = []) :
    classify s = Command.Empty := by
  unfold classify
  rw [if_neg hx, if_pos he]

lemma classify_search_of (s : List Char) (hx : s ≠ ['x']) (he : pyStrip s ≠ [])
    (hs : startswith_s_space s = true) :
    classify s = Command.Search (s.drop 2) := by
  unfold classify
  rw [if_neg hx, if_neg he, if_pos hs]

lemma classify_lookup_of (s : List Char) (hx : s ≠ ['x']) (he : pyStrip s ≠ [])
    (hs : startswith_s_space s = false) :
    classify s = Command.Lookup s := by
  unfold classify
  rw [if_neg hx, if_neg he]
  simp [hs]

lemma startswith_true_elim (s : List Char) (h : startswith_s_space s = true) :
    ∃ t, s = 's' :: ' ' :: t := by
  unfold startswith_s_space at h
  rw [beq_iff_eq] at h
  cases s with
  | nil => simp at h
  | cons a u =>
    cases u with
    | nil => simp at h
    | cons b t =>
      simp only [List.take_succ_cons, List.take_zero, List.cons.injEq,
        and_true] at h
      obtain ⟨ha, hb⟩ := h
      subst ha; subst hb
      exact ⟨t, rfl⟩

lemma loopEvents_cons_of_ne_exit (g : ReachabilityGraph) (line : List Char)
    (rest : List (List Char)) (h : classify line ≠ Command.Exit) :
    loopEvents g (line :: rest) =
      iterEvents g line ++ Event.prompt :: loopEvents g rest := by
  simp only [loopEvents, if_neg h]

lemma runLoop_cons_of_ne_exit (g : ReachabilityGraph) (line : List Char)
    (rest : List (List Char)) (h : classify line ≠ Command.Exit) :
    runLoop g (line :: rest) =
      ⟨iterOutput g line ++ (runLoop g rest).output,
       (runLoop g rest).consumed + 1, (runLoop g rest).exited⟩ := by
  simp only [runLoop, if_neg h]

lemma iterEvents_no_load (g : ReachabilityGraph) (line : List Char) :
    ∀ e ∈ iterEvents g line, isLoadCall e = false := by
  intro e he
  unfold iterEvents at he
  cases hc : classify line with
  | Exit => rw [hc] at he; cases he
  | Empty => rw [hc] at he; cases he
  | Search t =>
      rw [hc] at he
      rcases List.mem_cons.mp he with h | h
      · subst h; rfl
      · obtain ⟨l, -, hl⟩ := List.mem_map.mp h
        subst hl; rfl
  | Lookup n =>
      rw [hc] at he
      rcases List.mem_cons.mp he with h | h
      · subst h; rfl
      · rcases List.mem_cons.mp h with h2 | h2
        · subst h2; rfl
        · cases h2

lemma loopEvents_no_load (g : ReachabilityGraph) (inputs : List (List Char)) :
    ∀ e ∈ loopEvents g inputs, isLoadCall e = false := by
  induction inputs with
  | nil => intro e he; cases he
  | cons line rest ih =>
      intro e he
      unfold loopEvents at he
      by_cases h : classify line = Command.Exit
      · rw [if_pos h] at he; cases he
      · rw [if_neg h] at he
        rcases List.mem_append.mp he with h1 | h1
        · exact iterEvents_no_load g line e h1
        · rcases List.mem_cons.mp h1 with h2 | h2
          · subst h2; rfl
          · exact ih e h2

lemma runLoopGraph_eq (g : ReachabilityGraph) (inputs : List (List Char)) :
    runLoopGraph g inputs = g := by
  induction inputs with
  | nil => rfl
  | cons line rest ih =>
      unfold runLoopGraph
      by_cases h : classify line = Command.Exit
      · rw [if_pos h]
      · rw [if_neg h]; exact ih

lemma iterEvents_congr (g1 g2 : ReachabilityGraph)
    (hs : g1.list_nodes = g2.list_nodes) (hl : g1.get_node = g2.get_node)
    (line : List Char) : iterEvents g1 line = iterEvents g2 line := by
  unfold iterEvents lookupOutput
  rw [hs, hl]

lemma iterOutput_congr (g1 g2 : ReachabilityGraph)
    (hs : g1.list_nodes = g2.list_nodes) (hl : g1.get_node = g2.get_node)
    (line : List Char) : iterOutput g1 line = iterOutput g2 line := by
  unfold iterOutput lookupOutput
  rw [hs, hl]

/-! ### Claim theorems -/

/-- Claim C1, counterexample: the raw line made of space, `x`, space trims
to `x`, yet `classify` does not yield `Exit` — it dispatches the line as a
lookup of the raw string, and the loop does not terminate on it. -/
theorem claim1_cex_space_x_space :
    pyStrip [' ', 'x', ' '] = ['x'] ∧
    classify [' ', 'x', ' '] ≠ Command.Exit ∧
    classify [' ', 'x', ' '] = Command.Lookup [' ', 'x', ' '] ∧
    (runLoop gEmpty [[' ', 'x', ' ']]).exited = false := by
  refine ⟨by decide, by decide, by decide, rfl⟩

/-- Claim C1 (amended): only the raw line `x` is classified `Exit` and
terminates the loop; a line whose trimmed form equals `x` but which is not
exactly `x` (such as ` x `) is dispatched as a lookup of the raw line and
leaves the loop's exit status unchanged. -/
theorem exit_requires_untrimmed_x (g : ReachabilityGraph) (s : List Char)
    (rest : List (List Char)) (hstrip : pyStrip s = ['x'])
    (hne : s ≠ ['x']) :
    classify s = Command.Lookup s ∧
    classify s ≠ Command.Exit ∧
    (runLoop g (s :: rest)).exited = (runLoop g rest).exited ∧
    (runLoop g (['x'] :: rest)).exited = true := by
  have henil : pyStrip s ≠ [] := by rw [hstrip]; exact List.cons_ne_nil 'x' []
  have hsw : startswith_s_space s = false := by
    by_contra hsw
    rw [Bool.not_eq_false] at hsw
    obtain ⟨t, ht⟩ := startswith_true_elim s hsw
    rw [ht, pyStrip_cons_of_not_space 's' (' ' :: t) (by decide)] at hstrip
    injection hstrip with h1 _
    exact absurd h1 (by decide)
  have hcl := classify_lookup_of s hne henil hsw
  have hnx : classify s ≠ Command.Exit := by
    rw [hcl]; exact fun h => Command.noConfusion h
  refine ⟨hcl, hnx, ?_, ?_⟩
  · rw [runLoop_cons_of_ne_exit g s rest hnx]
  · simp only [runLoop, if_pos (show classify ['x'] = Command.Exit by decide)]

/-- Claim C1, witness at the concrete lines ` x ` and no-break-space
followed by `x`, both of which trim to `x`, with an empty graph. -/
theorem exit_requires_untrimmed_x_witness :
    (classify [' ', 'x', ' '] = Command.Lookup [' ', 'x', ' '] ∧
      classify [' ', 'x', ' '] ≠ Command.Exit ∧
      (runLoop gEmpty [[' ', 'x', ' ']]).exited = (runLoop gEmpty []).exited ∧
      (runLoop gEmpty [['x']]).exited = true) ∧
    classify [Char.ofNat 160, 'x'] = Command.Lookup [Char.ofNat 160, 'x'] :=
  ⟨exit_requires_untrimmed_x gEmpty [' ', 'x', ' '] [] (by decide) (by decide),
   (exit_requires_untrimmed_x gEmpty [Char.ofNat 160, 'x'] []
     (by decide) (by decide)).1⟩

/-- Claim C2: exactly the raw input line `x` terminates the query loop —
`classify` never yields `Exit` on a different line, such a line leaves the
loop's exit status unchanged, and the line `x` itself does terminate. -/
theorem exit_only_exact_x (g : ReachabilityGraph) (s : List Char)
    (rest : List (List Char)) (hne : s ≠ ['x']) :
    classify s ≠ Command.Exit ∧
    (runLoop g (s :: rest)).exited = (runLoop g rest).exited ∧
    (runLoop g (['x'] :: rest)).exited = true := by
  have h1 : classify s ≠ Command.Exit :=
    fun h => hne ((classify_eq_exit_iff s).mp h)
  refine ⟨h1, ?_, ?_⟩
  · rw [runLoop_cons_of_ne_exit g s rest h1]
  · simp only [runLoop, if_pos (show classify ['x'] = Command.Exit by decide)]

/-- Claim C2, witness at the concrete lines `X`, `x ` and `xx`. -/
theorem exit_only_exact_x_witness :
    (classify ['X'] ≠ Command.Exit ∧
      (runLoop gEmpty [['X']]).exited = (runLoop gEmpty []).exited ∧
      (runLoop gEmpty [['x']]).exited = true) ∧
    classify ['x', ' '] ≠ Command.Exit ∧
    classify ['x', 'x'] ≠ Command.Exit :=
  ⟨exit_only_exact_x gEmpty ['X'] [] (by decide),
   (exit_only_exact_x gEmpty ['x', ' '] [] (by decide)).1,
   (exit_only_exact_x gEmpty ['x', 'x'] [] (by decide)).1⟩

/-- Claim C3: a line made only of whitespace (or empty) is classified
`Empty`; its iteration makes no collaborator call and prints nothing, the
loop goes straight back to the prompt, and the exit status is unchanged. -/
theorem whitespace_line_reprompts (g : ReachabilityGraph) (s : List Char)
    (rest : List (List Char)) (h : ∀ c ∈ s, isPySpace c = true) :
    classify s = Command.Empty ∧
    iterEvents g s = [] ∧
    iterOutput g s = [] ∧
    loopEvents g (s :: rest) = Event.prompt :: loopEvents g rest ∧
    (runLoop g (s :: rest)).exited = (runLoop g rest).exited := by
  have hx := all_space_ne_x s h
  have he : pyStrip s = [] := (pyStrip_eq_nil_iff s).mpr h
  have hc := classify_empty_of s hx he
  have hne : classify s ≠ Command.Exit := by
    rw [hc]; exact fun h => Command.noConfusion h
  have hie : iterEvents g s = [] := by unfold iterEvents; rw [hc]
  have hio : iterOutput g s = [] := by unfold iterOutput; rw [hc]
  refine ⟨hc, hie, hio, ?_, ?_⟩
  · rw [loopEvents_cons_of_ne_exit g s rest hne, hie, List.nil_append]
  · rw [runLoop_cons_of_ne_exit g s rest hne]

/-- Claim C3, witness at the empty line, at a space-tab line, and at lines
made of a single no-break space U+00A0 and a single file separator U+001C. -/
theorem whitespace_line_reprompts_witness :
    (classify [] = Command.Empty ∧
      iterEvents gEmpty [] = [] ∧
      iterOutput gEmpty [] = [] ∧
      loopEvents gEmpty ([] :: []) = Event.prompt :: loopEvents gEmpty [] ∧
      (runLoop gEmpty ([] :: [])).exited = (runLoop gEmpty []).exited) ∧
    classify [' ', '\t'] = Command.Empty ∧
    classify [Char.ofNat 160] = Command.Empty ∧
    classify [Char.ofNat 28] = Command.Empty :=
  ⟨whitespace_line_reprompts gEmpty [] [] (by decide),
   (whitespace_line_reprompts gEmpty [' ', '\t'] [] (by decide)).1,
   (whitespace_line_reprompts gEmpty [Char.ofNat 160] [] (by decide)).1,
   (whitespace_line_reprompts gEmpty [Char.ofNat 28] [] (by decide)).1⟩

/-- Claim C4: a line beginning with the two characters `s` and a space is
classified as a search whose term is exactly the remainder of the line; the
iteration calls only the search operation (never lookup), the loop
continues, and a line whose first character is whitespace is never
classified as a search. -/
theorem search_cmd_dispatch (g : ReachabilityGraph) (t : List Char)
    (rest : List (List Char)) (c : Char) (u : List Char)
    (hc : isPySpace c = true) :
    classify ('s' :: ' ' :: t) = Command.Search t ∧
    iterEvents g ('s' :: ' ' :: t) =
      Event.call (GSCall.search t) :: (g.list_nodes t).map Event.output ∧
    (∀ n, Event.call (GSCall.lookup n) ∉ iterEvents g ('s' :: ' ' :: t)) ∧
    (runLoop g (('s' :: ' ' :: t) :: rest)).exited =
      (runLoop g rest).exited ∧
    (∀ w, classify (c :: u) ≠ Command.Search w) := by
  have hx : ('s' :: ' ' :: t) ≠ ['x'] := by
    intro h; injection h with h1 _; exact absurd h1 (by decide)
  have he : pyStrip ('s' :: ' ' :: t) ≠ [] :=
    pyStrip_ne_nil_of_mem _ 's' (List.mem_cons_self _ _) (by decide)
  have hsw : startswith_s_space ('s' :: ' ' :: t) = true := by
    unfold startswith_s_space
    rw [beq_iff_eq]
    rfl
  have hcl : classify ('s' :: ' ' :: t) = Command.Search t := by
    have := classify_search_of ('s' :: ' ' :: t) hx he hsw
    rwa [show ('s' :: ' ' :: t).drop 2 = t from rfl] at this
  have hne : classify ('s' :: ' ' :: t) ≠ Command.Exit := by
    rw [hcl]; exact fun h => Command.noConfusion h
  have hie : iterEvents g ('s' :: ' ' :: t) =
      Event.call (GSCall.search t) :: (g.list_nodes t).map Event.output := by
    unfold iterEvents; rw [hcl]
  refine ⟨hcl, hie, ?_, ?_, ?_⟩
  · intro n hn
    rw [hie] at hn
    rcases List.mem_cons.mp hn with h1 | h1
    · injection h1 with h2; exact GSCall.noConfusion h2
    · obtain ⟨l, -, hl⟩ := List.mem_map.mp h1
      exact Event.noConfusion hl
  · rw [runLoop_cons_of_ne_exit g _ rest hne]
  · intro w hw
    unfold classify at hw
    by_cases h1 : (c :: u) = ['x']
    · rw [if_pos h1] at hw; exact Command.noConfusion hw
    · rw [if_neg h1] at hw
      by_cases h2 : pyStrip (c :: u) = []
      · rw [if_pos h2] at hw; exact Command.noConfusion hw
      · rw [if_neg h2] at hw
        by_cases h3 : startswith_s_space (c :: u) = true
        · obtain ⟨t', ht'⟩ := startswith_true_elim _ h3
          have hcs : c = 's' := by injection ht'
          rw [hcs] at hc
          exact absurd hc (by decide)
        · rw [if_neg h3] at hw; exact Command.noConfusion hw

/-- Claim C4, witness at the line `s Foo` and the whitespace-led line
` s Foo`. -/
theorem search_cmd_dispatch_witness :
    classify ['s', ' ', 'F', 'o', 'o'] = Command.Search ['F', 'o', 'o'] ∧
    iterEvents gEmpty ['s', ' ', 'F', 'o', 'o'] =
      Event.call (GSCall.search ['F', 'o', 'o']) ::
        (gEmpty.list_nodes ['F', 'o', 'o']).map Event.output ∧
    (∀ w, classify [' ', 's', ' ', 'F', 'o', 'o'] ≠ Command.Search w) :=
  have h := search_cmd_dispatch gEmpty ['F', 'o', 'o'] [] ' '
    ['s', ' ', 'F', 'o', 'o'] (by decide)
  ⟨h.1, h.2.1, h.2.2.2.2⟩

/-- Claim C5: a line that is not `x`, does not trim to empty, and does not
begin with `s` and a space is dispatched as a lookup whose key is the full
raw line; the iteration makes exactly the lookup call and prints exactly
its one result line, and the loop continues. -/
theorem lookup_dispatch_raw (g : ReachabilityGraph) (s : List Char)
    (rest : List (List Char)) (hx : s ≠ ['x']) (he : pyStrip s ≠ [])
    (hs : startswith_s_space s = false) :
    classify s = Command.Lookup s ∧
    iterEvents g s =
      [Event.call (GSCall.lookup s), Event.output (lookupOutput g s)] ∧
    (runLoop g (s :: rest)).exited = (runLoop g rest).exited := by
  have hcl := classify_lookup_of s hx he hs
  have hne : classify s ≠ Command.Exit := by
    rw [hcl]; exact fun h => Command.noConfusion h
  refine ⟨hcl, ?_, ?_⟩
  · unfold iterEvents; rw [hcl]
  · rw [runLoop_cons_of_ne_exit g s rest hne]

/-- Claim C5, witness at the line `Foo` with an empty graph. -/
theorem lookup_dispatch_raw_witness :
    classify ['F', 'o', 'o'] = Command.Lookup ['F', 'o', 'o'] ∧
    iterEvents gEmpty ['F', 'o', 'o'] =
      [Event.call (GSCall.lookup ['F', 'o', 'o']),
       Event.output (lookupOutput gEmpty ['F', 'o', 'o'])] ∧
    (runLoop gEmpty [['F', 'o', 'o']]).exited =
      (runLoop gEmpty []).exited :=
  lookup_dispatch_raw gEmpty ['F', 'o', 'o'] [] (by decide) (by decide)
    (by decide)

/-- Claim C6: on a lookup-dispatched line, a missing name makes the
iteration print exactly the formatted not-found message and a present name
makes it print exactly that node's rendering; in both cases the line is not
the exit command, the exit status is unchanged, and the loop returns to the
prompt. -/
theorem lookup_miss_handled (g : ReachabilityGraph) (s n : List Char)
    (rest : List (List Char)) (h : classify s = Command.Lookup n) :
    (g.get_node n = none → iterOutput g s = [cannotFindMsg n]) ∧
    (∀ r, g.get_node n = some r → iterOutput g s = [r]) ∧
    classify s ≠ Command.Exit ∧
    (runLoop g (s :: rest)).exited = (runLoop g rest).exited ∧
    loopEvents g (s :: rest) =
      iterEvents g s ++ Event.prompt :: loopEvents g rest := by
  have hne : classify s ≠ Command.Exit := by
    rw [h]; exact fun h2 => Command.noConfusion h2
  have hio : iterOutput g s = [lookupOutput g n] := by
    unfold iterOutput; rw [h]
  refine ⟨?_, ?_, hne, ?_, ?_⟩
  · intro hnone
    rw [hio]
    unfold lookupOutput
    rw [hnone]
  · intro r hr
    rw [hio]
    unfold lookupOutput
    rw [hr]
  · rw [runLoop_cons_of_ne_exit g s rest hne]
  · rw [loopEvents_cons_of_ne_exit g s rest hne]

/-- Claim C6, witness: looking up the absent name `Z` and the present name
`A` in the one-node sample graph. -/
theorem lookup_miss_handled_witness :
    iterOutput gOneNode ['Z'] = [cannotFindMsg ['Z']] ∧
    iterOutput gOneNode ['A'] = [['A']] ∧
    (runLoop gOneNode [['Z']]).exited = (runLoop gOneNode []).exited :=
  have hz := lookup_miss_handled gOneNode ['Z'] ['Z'] [] (by decide)
  have ha := lookup_miss_handled gOneNode ['A'] ['A'] [] (by decide)
  ⟨hz.1 rfl, ha.2.1 ['A'] rfl, hz.2.2.2.1⟩

/-- Claim C7: classification is total and deterministic — every line maps
to exactly one command, and the four rule conditions (exit, empty, search,
lookup), taken in the source order, cover every input and determine the
outcome. -/
theorem classify_total_and_det (s : List Char) :
    (∃! cmd : Command, classify s = cmd) ∧
    (s = ['x'] → classify s = Command.Exit) ∧
    (s ≠ ['x'] → pyStrip s = [] → classify s = Command.Empty) ∧
    (s ≠ ['x'] → pyStrip s ≠ [] → startswith_s_space s = true →
      classify s = Command.Search (s.drop 2)) ∧
    (s ≠ ['x'] → pyStrip s ≠ [] → startswith_s_space s = false →
      classify s = Command.Lookup s) := by
  refine ⟨⟨classify s, rfl, fun y hy => hy.symm⟩, ?_,
    classify_empty_of s, classify_search_of s, classify_lookup_of s⟩
  intro h; subst h; rfl

/-- Claim C7, witness at the concrete line `q`. -/
theorem classify_total_and_det_witness :
    classify ['q'] = Command.Lookup ['q'] :=
  (classify_total_and_det ['q']).2.2.2.2 (by decide) (by decide) (by decide)

/-- Claim C8: in a whole session the `load` call happens exactly once, it
precedes the first prompt, no loop iteration makes a further `load` call,
and the graph state threaded through the loop is returned unchanged. -/
theorem load_once_and_graph_unchanged (g : ReachabilityGraph)
    (path : List Char) (inputs : List (List Char)) :
    (mainEvents g path inputs).countP isLoadCall = 1 ∧
    (mainEvents g path inputs).take 2 =
      [Event.loadingNotice, Event.call (GSCall.load path)] ∧
    Event.prompt ∉ (mainEvents g path inputs).take 2 ∧
    (∀ e ∈ loopEvents g inputs, isLoadCall e = false) ∧
    runLoopGraph g inputs = g := by
  refine ⟨?_, rfl, ?_, loopEvents_no_load g inputs, runLoopGraph_eq g inputs⟩
  · have h0 : (loopEvents g inputs).countP isLoadCall = 0 := by
      rw [List.countP_eq_zero]
      intro e he
      rw [loopEvents_no_load g inputs e he]
      exact fun h => Bool.noConfusion h
    unfold mainEvents
    rw [List.countP_cons, List.countP_cons, List.countP_cons, h0]
    rfl
  · intro h
    unfold mainEvents at h
    rcases List.mem_cons.mp h with h1 | h1
    · exact Event.noConfusion h1
    · rcases List.mem_cons.mp h1 with h2 | h2
      · exact Event.noConfusion h2
      · cases h2

/-- Claim C9: a line that is just `s`, or that starts with `s` followed by
a character other than a space, is not a search command: it is dispatched
as a lookup of the full raw line. -/
theorem s_without_space_is_lookup (g : ReachabilityGraph) (c : Char)
    (u : List Char) (hc : c ≠ ' ') :
    classify ['s'] = Command.Lookup ['s'] ∧
    classify ('s' :: c :: u) = Command.Lookup ('s' :: c :: u) ∧
    iterEvents g ('s' :: c :: u) =
      [Event.call (GSCall.lookup ('s' :: c :: u)),
       Event.output (lookupOutput g ('s' :: c :: u))] := by
  have hx : ('s' :: c :: u) ≠ ['x'] := by
    intro h; injection h with h1 _; exact absurd h1 (by decide)
  have he : pyStrip ('s' :: c :: u) ≠ [] :=
    pyStrip_ne_nil_of_mem _ 's' (List.mem_cons_self _ _) (by decide)
  have hs : startswith_s_space ('s' :: c :: u) = false := by
    unfold startswith_s_space
    rw [beq_eq_false_iff_ne]
    intro h
    simp only [List.take_succ_cons, List.take_zero, List.cons.injEq,
      and_true] at h
    exact hc h.2
  have hcl := classify_lookup_of ('s' :: c :: u) hx he hs
  refine ⟨by decide, hcl, ?_⟩
  unfold iterEvents; rw [hcl]

/-- Claim C9, witness at the concrete line `search`. -/
theorem s_without_space_is_lookup_witness :
    classify ['s', 'e', 'a', 'r', 'c', 'h'] =
      Command.Lookup ['s', 'e', 'a', 'r', 'c', 'h'] :=
  (s_without_space_is_lookup gEmpty 'e' ['a', 'r', 'c', 'h']
    (by decide)).2.1

/-- Claim C10: the session is deterministic and depends on the collaborator
only through the behaviour of its search and lookup operations — two graphs
whose `list_nodes` and `get_node` agree produce the same event trace and
the same run result (same printed output, same number of consumed lines,
same exit status) on every input sequence. -/
theorem loop_deterministic (g1 g2 : ReachabilityGraph)
    (inputs : List (List Char))
    (hs : g1.list_nodes = g2.list_nodes)
    (hl : g1.get_node = g2.get_node) :
    loopEvents g1 inputs = loopEvents g2 inputs ∧
    runLoop g1 inputs = runLoop g2 inputs := by
  induction inputs with
  | nil => exact ⟨rfl, rfl⟩
  | cons line rest ih =>
      obtain ⟨ih1, ih2⟩ := ih
      constructor
      · unfold loopEvents
        by_cases h : classify line = Command.Exit
        · rw [if_pos h, if_pos h]
        · rw [if_neg h, if_neg h, iterEvents_congr g1 g2 hs hl line, ih1]
      · unfold runLoop
        by_cases h : classify line = Command.Exit
        · rw [if_pos h, if_pos h]
        · rw [if_neg h, if_neg h, iterOutput_congr g1 g2 hs hl line, ih2]

/-- Claim C10, witness: two graphs with different internal node data but
identical search and lookup behaviour give identical traces on a two-line
session. -/
theorem loop_deterministic_witness :
    loopEvents ⟨[(['A'], ['B'])], fun _ => [], fun _ => none⟩
        [['q'], ['x']] =
      loopEvents gEmpty [['q'], ['x']] ∧
    runLoop ⟨[(['A'], ['B'])], fun _ => [], fun _ => none⟩
        [['q'], ['x']] =
      runLoop gEmpty [['q'], ['x']] :=
  loop_deterministic ⟨[(['A'], ['B'])], fun _ => [], fun _ => none⟩
    gEmpty [['q'], ['x']] rfl rfl
